import Mathlib

/-!
Verification of the review-intake and AI-response pipeline of `Task2/app.py`.

Python strings are embedded as `List Char` (a Python `str` is a sequence of
code points).  The Python primitives used by the program are modelled below:
`str.strip` (as `pstrip`, restricted to ASCII whitespace, the only whitespace
occurring in this program's data), `str.splitlines` (as `splitlines`,
splitting on the newline character, the only line separator occurring here),
`str.startswith` (as `startswith`), `str.replace pat ""` (as `removeAll`,
replacing every occurrence, as Python does), `re.split` on the single-char
alternation comma/bullet/hyphen (as `psplit`), and `int(...)` coercion
(as `pyInt`).  The process-global mutable state (`AI_ENABLED`, `gemini_model`)
is passed explicitly as an `AIState`; the external Gemini provider is an
oracle `List Char → Nat → ProviderResult` giving the outcome of each attempt
for a given prompt.
-/

/-- ASCII whitespace test, model of the character class stripped by
Python `str.strip()` for the data occurring in this program. -/
def pyIsSpace (c : Char) : Bool := c.isWhitespace

/-- Model of Python `str.lstrip()`. -/
def lstrip (s : List Char) : List Char := s.dropWhile pyIsSpace

/-- Model of Python `str.rstrip()`. -/
def rstrip (s : List Char) : List Char := (s.reverse.dropWhile pyIsSpace).reverse

/-- Model of Python `str.strip()`: drop whitespace at both ends. -/
def pstrip (s : List Char) : List Char := rstrip (lstrip s)

/-- Model of Python `str.startswith(pat)`. -/
def startswith : List Char → List Char → Bool
  | [], _ => true
  | _ :: _, [] => false
  | p :: ps, c :: cs => p = c && startswith ps cs

/-- Worker for `removeAll`: scan the text; while `skip` is positive the
current character belongs to an occurrence already matched and is dropped.
At `skip = 0`, a fresh occurrence of `pat` starting here is dropped by
consuming its first character and skipping the remaining `pat.length - 1`. -/
def removeAllAux (pat : List Char) : List Char → Nat → List Char
  | [], _ => []
  | _ :: rest, Nat.succ k => removeAllAux pat rest k
  | c :: rest, 0 =>
    if pat ≠ [] ∧ startswith pat (c :: rest) then
      removeAllAux pat rest (pat.length - 1)
    else
      c :: removeAllAux pat rest 0

/-- Model of Python `s.replace(pat, "")`: remove every (leftmost-first,
non-overlapping) occurrence of `pat` in `s`. -/
def removeAll (pat : List Char) (s : List Char) : List Char :=
  removeAllAux pat s 0

/-- Model of `re.split` over a single-character alternation: cut `s` at every
character satisfying `p`, keeping empty segments (as `re.split` does). -/
def psplit (p : Char → Bool) : List Char → List (List Char)
  | [] => [[]]
  | c :: rest =>
    if p c then [] :: psplit p rest
    else
      match psplit p rest with
      | [] => [[c]]
      | hd :: tl => (c :: hd) :: tl

/-- Model of Python `str.splitlines()` for text whose only line separator is
the newline character: split on newlines, with no trailing empty line when
the text ends in a newline, and no lines at all for the empty text. -/
def splitlines (s : List Char) : List (List Char) :=
  match s with
  | [] => []
  | _ =>
    let pieces := psplit (fun c => c = '\n') s
    if s.getLast? = some '\n' then pieces.dropLast else pieces

/-- The first label recognized by the parsing loop in `generate_ai_responses`. -/
def lblResp : List Char := String.toList "RESPONSE TO CUSTOMER:"

/-- The second label recognized by the parsing loop in `generate_ai_responses`. -/
def lblSum : List Char := String.toList "SUMMARY:"

/-- The third label recognized by the parsing loop in `generate_ai_responses`. -/
def lblSug : List Char := String.toList "SUGGESTIONS:"

/-- Delimiters of the suggestion splitting `re.split(r",|•|-", ...)`:
comma, bullet, hyphen. -/
def isSugDelim (c : Char) : Bool := c = ',' || c = '•' || c = '-'

/-- The AI Response Triple `{customer_response, summary, suggestions}`
produced per submission (transient value, spec section 3). -/
structure Triple where
  customer_response : List Char
  summary : List Char
  suggestions : List (List Char)
deriving DecidableEq, Repr

/-- One iteration of the parsing loop of `generate_ai_responses`
(`for line in ai_output.splitlines()`): strip the line, and on an exact label
match overwrite the corresponding accumulator field with the stripped
remainder; the suggestions remainder is split on comma/bullet/hyphen, each
kept piece stripped, pieces that strip to empty discarded. -/
def parse_line (acc : Triple) (rawLine : List Char) : Triple :=
  let line := pstrip rawLine
  if startswith lblResp line then
    { acc with customer_response := pstrip (removeAll lblResp line) }
  else if startswith lblSum line then
    { acc with summary := pstrip (removeAll lblSum line) }
  else if startswith lblSug line then
    let sugText := pstrip (removeAll lblSug line)
    { acc with suggestions :=
        ((psplit isSugDelim sugText).filter (fun s => pstrip s ≠ [])).map pstrip }
  else acc

/-- The whole parsing loop: fold `parse_line` over the lines of the provider
output, starting from empty fields. -/
def parse_fields (out : List Char) : Triple :=
  (splitlines out).foldl parse_line ⟨[], [], []⟩

/-- The parse acceptance test of `generate_ai_responses`
(`if customer_response and summary and suggestions`): the parsed triple is
accepted only when all three fields are non-empty. -/
def parse_ai_output (out : List Char) : Option Triple :=
  let p := parse_fields out
  if p.customer_response ≠ [] ∧ p.summary ≠ [] ∧ p.suggestions ≠ [] then some p else none

/-- Modelled from the spec's words (section 4.4), for comparison with the
source's suggestion computation: the suggestions remainder is split on the
delimiters comma, bullet, or hyphen; each resulting piece is trimmed; empty
pieces are discarded. -/
def spec_split_suggestions (rem : List Char) : List (List Char) :=
  ((psplit isSugDelim rem).map pstrip).filter (fun s => s ≠ [])

/-- The static `fallback_responses` table of `generate_ai_responses`,
ratings 1 to 5 (strings transcribed verbatim from the source). -/
def fallback_lookup (rating : Int) : Option Triple :=
  if rating = 1 then some
    { customer_response := String.toList "We sincerely apologize for your disappointing experience and will urgently review what went wrong."
      summary := String.toList "Critical 1-star review requiring immediate attention."
      suggestions :=
        [ String.toList "Reach out to the customer personally"
        , String.toList "Review staff performance on this shift"
        , String.toList "Check food and service quality controls" ] }
  else if rating = 2 then some
    { customer_response := String.toList "Thank you for your honest feedback. We’re sorry we fell short and will work to address these issues."
      summary := String.toList "Mostly negative experience with clear improvement areas."
      suggestions :=
        [ String.toList "Investigate specific complaints"
        , String.toList "Provide coaching or retraining where needed"
        , String.toList "Offer a goodwill gesture if appropriate" ] }
  else if rating = 3 then some
    { customer_response := String.toList "Thank you for sharing your experience. We’ll use your feedback to make improvements."
      summary := String.toList "Neutral or mixed review with room for improvement."
      suggestions :=
        [ String.toList "Identify key pain points mentioned"
        , String.toList "Review processes related to the feedback"
        , String.toList "Monitor similar feedback trends" ] }
  else if rating = 4 then some
    { customer_response := String.toList "Thank you for the positive review! We’re glad you enjoyed your visit and hope to see you again soon."
      summary := String.toList "Generally positive review with minor issues."
      suggestions :=
        [ String.toList "Share praise with staff"
        , String.toList "Address any small issues mentioned"
        , String.toList "Encourage customer to return / leave public review" ] }
  else if rating = 5 then some
    { customer_response := String.toList "Thank you for the amazing review! We’re thrilled you had a great experience."
      summary := String.toList "Excellent review with high satisfaction."
      suggestions :=
        [ String.toList "Celebrate with the team"
        , String.toList "Consider featuring this as a testimonial"
        , String.toList "Maintain the standards praised by the customer" ] }
  else none

/-- The pipeline fallback `fallback_responses.get(rating, fallback_responses[3])`:
total lookup with the rating-3 entry as default. -/
def fallback_responses (rating : Int) : Triple :=
  (fallback_lookup rating).getD ((fallback_lookup 3).get (by decide))

/-- The process-wide mutable state consulted by the AI client: the
`AI_ENABLED` flag and whether `gemini_model` is not `None`. -/
structure AIState where
  enabled : Bool
  modelPresent : Bool
deriving DecidableEq, Repr

/-- Outcome of one provider invocation inside `generate_ai_content`:
either the call (plus text extraction) returned with extracted text
`t : Option (List Char)` (`none` models Python `text = None`), or it raised. -/
inductive ProviderResult where
  | ok (t : Option (List Char))
  | exn
deriving DecidableEq, Repr

/-- Model of `return text.strip() if text else None`: a missing or empty
(falsy) text yields `None`, otherwise the stripped text. -/
def stripOrNone : Option (List Char) → Option (List Char)
  | none => none
  | some t => if t = [] then none else some (pstrip t)

/-- Model of `generate_ai_content(prompt)` with the provider as an oracle
giving the outcome of each attempt.  Returns the text result, the new process
state, and the number of provider invocations made.  While enabled (and the
model object present) the provider is tried up to 2 times; if both attempts
raise, `AI_ENABLED` is cleared and `None` is returned. -/
def generate_ai_content (st : AIState) (prompt : List Char)
    (provider : List Char → Nat → ProviderResult) :
    Option (List Char) × AIState × Nat :=
  if st.enabled && st.modelPresent then
    match provider prompt 0 with
    | .ok t => (stripOrNone t, st, 1)
    | .exn =>
      match provider prompt 1 with
      | .ok t => (stripOrNone t, st, 2)
      | .exn => (none, { st with enabled := false }, 2)
  else
    (none, st, 0)

/-- Sequential runs of `generate_ai_content` within one process: each call
has a prompt and a provider oracle, and the state threads through. -/
def runGenCalls (st : AIState) :
    List (List Char × (List Char → Nat → ProviderResult)) →
    List (Option (List Char) × Nat) × AIState
  | [] => ([], st)
  | (p, pr) :: rest =>
    let g := generate_ai_content st p pr
    let r := runGenCalls g.2.1 rest
    ((g.1, g.2.2) :: r.1, r.2)

/-- The prompt template of `generate_ai_responses`, with `rating` and
`review` interpolated verbatim as in the Python f-string. -/
def build_prompt (rating : Int) (review : List Char) : List Char :=
  String.toList "\nYou are an AI assistant for a restaurant feedback system.\n\nGiven this "
  ++ String.toList (toString rating)
  ++ String.toList "-star review:\n\nREVIEW: \"\"\""
  ++ review
  ++ String.toList "\"\"\"\n\nGenerate:\n\n1. A polite, professional response to the customer (1–2 sentences)\n2. A brief summary for the restaurant manager (1 sentence)\n3. 2–3 actionable suggestions for improvement or follow-up\n\nFormat your response EXACTLY as:\n\nRESPONSE TO CUSTOMER: <text>\nSUMMARY: <text>\nSUGGESTIONS: <suggestion 1>, <suggestion 2>, <suggestion 3>\n"

/-- Model of the pipeline `generate_ai_responses(rating, review)`: when
`AI_ENABLED`, build the prompt and call the AI client; if it returned a
non-empty (truthy) text whose parse is accepted, return the parsed triple,
otherwise the fallback entry for the rating.  The possibly-updated process
state is returned alongside. -/
def generate_ai_responses (st : AIState)
    (provider : List Char → Nat → ProviderResult)
    (rating : Int) (review : List Char) : Triple × AIState :=
  if st.enabled then
    let g := generate_ai_content st (build_prompt rating review) provider
    match g.1 with
    | some out =>
      if out ≠ [] then
        match parse_ai_output out with
        | some tr => (tr, g.2.1)
        | none => (fallback_responses rating, g.2.1)
      else (fallback_responses rating, g.2.1)
    | none => (fallback_responses rating, g.2.1)
  else
    (fallback_responses rating, st)

/-- JSON values, for the request body and the backing file
(objects are not needed beyond the two fields read from the body). -/
inductive JVal where
  | jnull
  | jbool (b : Bool)
  | jint (n : Int)
  | jstr (s : List Char)
  | jarr (l : List JVal)

/-- Python truthiness of a JSON-decoded value. -/
def truthy : JVal → Bool
  | .jnull => false
  | .jbool b => b
  | .jint n => n ≠ 0
  | .jstr s => s ≠ []
  | .jarr l => !l.isEmpty

/-- Decimal digit run to a number, or `none` when empty or non-digit
(the failure of Python `int(str)`). -/
def digitsToNat (l : List Char) : Option Nat :=
  if l ≠ [] ∧ l.all (fun c => c.isDigit) then
    some (l.foldl (fun a c => a * 10 + (c.toNat - 48)) 0)
  else none

/-- Model of Python `int(string)`: strip whitespace, optional sign,
then a non-empty digit run; anything else raises (here `none`). -/
def parseIntStr (s : List Char) : Option Int :=
  match pstrip s with
  | '+' :: rest => (digitsToNat rest).map (fun n => (n : Int))
  | '-' :: rest => (digitsToNat rest).map (fun n => -(n : Int))
  | t => (digitsToNat t).map (fun n => (n : Int))

/-- Model of Python `int(v)` on a JSON-decoded value: integers pass
through, booleans coerce to 0/1, strings are parsed, everything else
raises (here `none`, which the submit handler turns into a 500). -/
def pyInt : JVal → Option Int
  | .jint n => some n
  | .jbool b => some (if b then 1 else 0)
  | .jstr s => parseIntStr s
  | _ => none

/-- Model of `int(data.get("rating", 3))`: an absent field defaults to 3;
a present field is coerced with `int`, whose failure (`none`) becomes an
exception caught by the handler's outer `try`. -/
def getRating (ratingField : Option JVal) : Option Int :=
  match ratingField with
  | none => some 3
  | some v => pyInt v

/-- Model of `(data.get("review") or "").strip()`: an absent or falsy field
yields the empty string; a truthy string is stripped; a truthy non-string
raises (`none`, leading to a 500). -/
def getReview (reviewField : Option JVal) : Option (List Char) :=
  match reviewField with
  | none => some []
  | some v =>
    if truthy v then
      match v with
      | .jstr s => some (pstrip s)
      | _ => none
    else some []

/-- A `datetime.now()` instant at microsecond precision, the clock input of
one submission. -/
structure DT where
  year : Nat
  month : Nat
  day : Nat
  hour : Nat
  minute : Nat
  second : Nat
  micro : Nat
deriving DecidableEq, Repr

/-- The component bounds guaranteed by Python `datetime` (year at most 9999;
two-digit month/day/hour/minute/second; six-digit microseconds). -/
def DT.valid (t : DT) : Prop :=
  t.year < 10000 ∧ t.month < 100 ∧ t.day < 100 ∧ t.hour < 100 ∧
    t.minute < 100 ∧ t.second < 100 ∧ t.micro < 1000000

instance (t : DT) : Decidable t.valid := by unfold DT.valid; infer_instance

/-- Base-10 digits of `n` (little-endian), zero-padded to width `k`:
the digit content of a `%0kd`-style strftime field. -/
def padDigits (k n : Nat) : List Nat :=
  Nat.digits 10 n ++ List.replicate (k - (Nat.digits 10 n).length) 0

/-- Digit content of `strftime("%Y%m%d%H%M%S%f")`, the submission id:
the seven zero-padded components concatenated. -/
def strftimeId (t : DT) : List Nat :=
  padDigits 4 t.year ++ padDigits 2 t.month ++ padDigits 2 t.day ++
    padDigits 2 t.hour ++ padDigits 2 t.minute ++ padDigits 2 t.second ++
    padDigits 6 t.micro

/-- Digit content of `strftime("%Y-%m-%d %H:%M:%S")`, the human-readable
timestamp (second precision; the separator punctuation is not modelled). -/
def strftimeTs (t : DT) : List Nat :=
  padDigits 4 t.year ++ padDigits 2 t.month ++ padDigits 2 t.day ++
    padDigits 2 t.hour ++ padDigits 2 t.minute ++ padDigits 2 t.second

/-- One persisted Review Record (spec section 3). -/
structure Submission where
  id : List Nat
  timestamp : List Nat
  rating : Int
  review : List Char
  ai_response : List Char
  ai_summary : List Char
  ai_actions : List (List Char)
deriving DecidableEq, Repr

/-- Outcome of a `POST /submit` request: 200 with the AI customer response,
400 with a message, or 500 from the handler's outer `except`. -/
inductive SubmitOutcome where
  | ok (ai_response : List Char)
  | badRequest (msg : List Char)
  | serverError
deriving DecidableEq, Repr

/-- Whether an outcome is a client error (400). -/
def isClientError : SubmitOutcome → Bool
  | .badRequest _ => true
  | _ => false

/-- Model of the `submit_review` handler: coerce the rating (failure gives a
500), extract and strip the review (failure gives a 500), then validate in
source order (empty review, rating range, review length), then run the
pipeline, build the record from the current clock instant, and append it to
the store.  Returns the HTTP outcome, the resulting store, and the resulting
process state. -/
def submit_review (st : AIState) (provider : List Char → Nat → ProviderResult)
    (now : DT) (store : List Submission)
    (ratingField reviewField : Option JVal) :
    SubmitOutcome × List Submission × AIState :=
  match getRating ratingField with
  | none => (.serverError, store, st)
  | some rating =>
    match getReview reviewField with
    | none => (.serverError, store, st)
    | some review =>
      if review = [] then
        (.badRequest (String.toList "Please write a review."), store, st)
      else if rating < 1 ∨ rating > 5 then
        (.badRequest (String.toList "Rating must be between 1 and 5."), store, st)
      else if review.length > 1000 then
        (.badRequest (String.toList "Review too long (max 1000 characters)."), store, st)
      else
        let g := generate_ai_responses st provider rating review
        let sub : Submission :=
          { id := strftimeId now
            timestamp := strftimeTs now
            rating := rating
            review := review
            ai_response := g.1.customer_response
            ai_summary := g.1.summary
            ai_actions := g.1.suggestions }
        (.ok g.1.customer_response, store ++ [sub], g.2)

/-- One submission event: the clock instant plus the two body fields. -/
structure SubmitEvent where
  now : DT
  ratingField : Option JVal
  reviewField : Option JVal

/-- Whether a submission event passes validation (validation depends only on
the body, not on the process state or the store). -/
def eventAccepted (e : SubmitEvent) : Bool :=
  match getRating e.ratingField, getReview e.reviewField with
  | some r, some rv => rv ≠ [] && !(r < 1 || r > 5) && rv.length ≤ 1000
  | _, _ => false

/-- A sequence of `POST /submit` requests handled in one process: the store
and the AI state thread through the calls. -/
def runSubmits (st : AIState) (provider : List Char → Nat → ProviderResult) :
    List SubmitEvent → List Submission → List Submission × AIState
  | [], store => (store, st)
  | e :: rest, store =>
    let r := submit_review st provider e.now store e.ratingField e.reviewField
    runSubmits r.2.2 provider rest r.2.1

/-- Model of the `GET /export` handler: the full record sequence verbatim. -/
def export_data (store : List Submission) : List Submission := store

/-- The zero-filled per-rating histogram dict `{1: 0, ..., 5: 0}`. -/
structure RatingCounts where
  c1 : Nat
  c2 : Nat
  c3 : Nat
  c4 : Nat
  c5 : Nat
deriving DecidableEq, Repr

/-- Model of `rating_counts[sub["rating"]] += 1`: a rating outside 1..5 is a
missing dict key, raising `KeyError` (here `none`). -/
def bumpCount (rc : RatingCounts) (r : Int) : Option RatingCounts :=
  if r = 1 then some { rc with c1 := rc.c1 + 1 }
  else if r = 2 then some { rc with c2 := rc.c2 + 1 }
  else if r = 3 then some { rc with c3 := rc.c3 + 1 }
  else if r = 4 then some { rc with c4 := rc.c4 + 1 }
  else if r = 5 then some { rc with c5 := rc.c5 + 1 }
  else none

/-- The histogram loop of `admin_dashboard`. -/
def foldCounts (subs : List Submission) : Option RatingCounts :=
  subs.foldlM (fun rc s => bumpCount rc s.rating) ⟨0, 0, 0, 0, 0⟩

/-- Python `round(x)` on an exact rational: round half to even. -/
def pyRound0 (q : ℚ) : ℤ :=
  let f : ℤ := ⌊q⌋
  let r : ℚ := q - f
  if r < 1/2 then f
  else if 1/2 < r then f + 1
  else if Even f then f else f + 1

/-- Python `round(x, 2)` on an exact rational (the source computes the mean
in floating point; the rational model is exact round-half-even at two
decimal places). -/
def round2 (q : ℚ) : ℚ := (pyRound0 (q * 100) : ℚ) / 100

/-- The values rendered by the admin view. -/
structure AdminView where
  total : Nat
  avg_rating : ℚ
  rating_counts : RatingCounts
deriving DecidableEq, Repr

/-- Model of the `admin_dashboard` handler: total count, the per-rating
histogram, and the mean rating rounded to 2 decimal places (0 with no
records); a stored rating outside 1..5 raises (`none`). -/
def admin_dashboard (subs : List Submission) : Option AdminView :=
  let total := subs.length
  if 0 < total then
    match foldCounts subs with
    | none => none
    | some rc =>
      let avg : ℚ := ((subs.map (fun s => s.rating)).sum : ℚ) / (total : ℚ)
      some ⟨total, round2 avg, rc⟩
  else
    some ⟨total, 0, ⟨0, 0, 0, 0, 0⟩⟩

/-- The state of the backing file as seen by one read: missing/unreadable,
readable but not decodable as JSON, or decodable to a JSON value. -/
inductive FileContent where
  | absent
  | unparsable
  | val (v : JVal)

/-- Model of `init_data_file()`: write an empty list when the file is
absent; re-write an empty list when it fails to parse or parses to a
non-list; otherwise leave it unchanged. -/
def init_data_file : FileContent → FileContent
  | .absent => .val (.jarr [])
  | .unparsable => .val (.jarr [])
  | .val v =>
    match v with
    | .jarr l => .val (.jarr l)
    | _ => .val (.jarr [])

/-- Model of `get_submissions()`: return the decoded JSON value; any
read/parse exception yields the empty list.  Note that a successfully
decoded non-list value is returned unchanged. -/
def get_submissions : FileContent → JVal
  | .absent => .jarr []
  | .unparsable => .jarr []
  | .val v => v

/-- Whether a decoded JSON value is the empty sequence. -/
def isEmptyArr : JVal → Bool
  | .jarr [] => true
  | _ => false

/-- Sample provider oracle all of whose invocations raise. -/
def provFail : List Char → Nat → ProviderResult := fun _ _ => .exn

/-- Sample provider oracle that always answers with a fixed text. -/
def provText (txt : List Char) : List Char → Nat → ProviderResult :=
  fun _ _ => .ok (some txt)

/-- Sample clock instant. -/
def dtA : DT := ⟨2025, 1, 2, 3, 4, 5, 6⟩

/-- Another sample clock instant, one microsecond later. -/
def dtB : DT := ⟨2025, 1, 2, 3, 4, 5, 7⟩

/-- Sample stored record carrying a given rating. -/
def exRec (r : Int) : Submission := ⟨[], [], r, [], [], [], []⟩

/-! Helper lemmas about the string primitives. -/

theorem lstrip_cons_of_not_space {c : Char} (t : List Char) (h : pyIsSpace c = false) :
    lstrip (c :: t) = c :: t := by
  simp [lstrip, List.dropWhile, h]

theorem rstrip_append {a : List Char} (b : List Char) (h : rstrip a = a) :
    rstrip (a ++ b) = a ++ rstrip b := by
  unfold rstrip at *
  rw [List.reverse_append, List.dropWhile_append]
  by_cases hb : (b.reverse.dropWhile pyIsSpace).isEmpty
  · rw [if_pos hb]
    rw [List.isEmpty_iff] at hb
    rw [hb]
    simpa using h
  · rw [if_neg hb]
    simp

theorem lstrip_suffix (s : List Char) : lstrip s <:+ s := List.dropWhile_suffix pyIsSpace

theorem lstrip_eq_self_of_length {s : List Char} (h : (lstrip s).length = s.length) :
    lstrip s = s :=
  List.Sublist.eq_of_length (lstrip_suffix s).sublist h

theorem rstrip_length_le (s : List Char) : (rstrip s).length ≤ s.length := by
  unfold rstrip
  calc (s.reverse.dropWhile pyIsSpace).reverse.length
      = (s.reverse.dropWhile pyIsSpace).length := List.length_reverse _
    _ ≤ s.reverse.length := (List.dropWhile_suffix pyIsSpace).sublist.length_le
    _ = s.length := List.length_reverse _

theorem of_pstrip_eq_self {t : List Char} (h : pstrip t = t) :
    lstrip t = t ∧ rstrip t = t := by
  have h1 : (lstrip t).length ≤ t.length := (lstrip_suffix t).sublist.length_le
  have h2 : (pstrip t).length ≤ (lstrip t).length := rstrip_length_le (lstrip t)
  rw [h] at h2
  have hls : lstrip t = t := lstrip_eq_self_of_length (le_antisymm h1 h2)
  refine ⟨hls, ?_⟩
  have := h
  rw [pstrip, hls] at this
  exact this

theorem rstrip_cons_of_rstrip_self {c : Char} {t : List Char}
    (h : rstrip t = t) (hne : t ≠ []) : rstrip (c :: t) = c :: t := by
  unfold rstrip at *
  have hrev : t.reverse.dropWhile pyIsSpace = t.reverse := by
    have := congrArg List.reverse h
    simpa using this
  rw [show (c :: t).reverse = t.reverse ++ [c] by simp, List.dropWhile_append, hrev]
  have : ¬t.reverse.isEmpty := by
    simp [List.isEmpty_iff, hne]
  rw [if_neg this]
  simp

/-! Helper lemmas about `startswith`. -/

theorem startswith_append_self (p u : List Char) : startswith p (p ++ u) = true := by
  induction p with
  | nil => simp [startswith]
  | cons c cs ih => simp [startswith, ih]

theorem startswith_append_left {p t : List Char} (w : List Char)
    (h : p.length ≤ t.length) : startswith p (t ++ w) = startswith p t := by
  induction p generalizing t with
  | nil => simp [startswith]
  | cons c cs ih =>
    cases t with
    | nil => simp at h
    | cons d ds =>
      simp only [List.cons_append, startswith]
      rw [show ds.append w = ds ++ w from rfl, ih (by simpa using h)]

theorem startswith_head_ne {p c : Char} {ps cs : List Char} (h : p ≠ c) :
    startswith (p :: ps) (c :: cs) = false := by
  simp [startswith, h]

theorem startswith_false_of_short {p : List Char} :
    ∀ {t : List Char}, t.length < p.length → startswith p t = false := by
  induction p with
  | nil => intro t h; simp at h
  | cons c cs ih =>
    intro t h
    cases t with
    | nil => rfl
    | cons d ds =>
      simp only [startswith, ih (by simpa using h), Bool.and_false]

/-! Helper lemmas about `removeAll`. -/

theorem removeAllAux_skip (pat : List Char) (a u : List Char) :
    removeAllAux pat (a ++ u) a.length = removeAllAux pat u 0 := by
  induction a with
  | nil => simp
  | cons c cs ih => simpa [removeAllAux] using ih

theorem removeAll_append_self {pat : List Char} (u : List Char) (h : pat ≠ []) :
    removeAll pat (pat ++ u) = removeAll pat u := by
  unfold removeAll
  cases pat with
  | nil => exact absurd rfl h
  | cons c cs =>
    rw [List.cons_append, removeAllAux]
    rw [if_pos ⟨h, by rw [← List.cons_append]; exact startswith_append_self _ u⟩]
    have : (c :: cs).length - 1 = cs.length := by simp
    rw [this, removeAllAux_skip]

theorem removeAll_of_no_occurrence {pat s : List Char}
    (H : ∀ w, w <:+ s → startswith pat w = false) : removeAll pat s = s := by
  unfold removeAll
  induction s with
  | nil => simp [removeAllAux]
  | cons c cs ih =>
    rw [removeAllAux]
    have hs : startswith pat (c :: cs) = false := H _ (List.suffix_refl _)
    rw [if_neg (by simp [hs])]
    rw [ih (fun w hw => H w (hw.trans (List.suffix_cons c cs)))]

/-! Helper lemmas about the parsing loop. -/

theorem filter_map_pstrip (l : List (List Char)) :
    (l.filter (fun s => pstrip s ≠ [])).map pstrip
      = (l.map pstrip).filter (fun s => s ≠ []) := by
  induction l with
  | nil => rfl
  | cons a as ih =>
    by_cases h : pstrip a = []
    · rw [List.filter_cons, List.map_cons, List.filter_cons,
          if_neg (by simp [h]), if_neg (by simp [h]), ih]
    · rw [List.filter_cons, List.map_cons, List.filter_cons,
          if_pos (by simp [h]), List.map_cons, if_pos (by simp [h]), ih]

theorem lstrip_cons_space (t : List Char) : lstrip (' ' :: t) = lstrip t := by
  simp [lstrip, List.dropWhile]
  rfl

/-- General behavior of one parsing-loop iteration on a suggestions line: for
a remainder `t` that is already trimmed and does not itself contain the
`SUGGESTIONS:` label, the line `SUGGESTIONS: t` overwrites exactly the
suggestions field, with the remainder split on comma/bullet/hyphen, trimmed,
and purged of empty pieces. -/
theorem parse_line_suggestions (acc : Triple) (t : List Char)
    (ht : pstrip t = t)
    (hocc : ∀ w, w <:+ t → startswith lblSug w = false) :
    parse_line acc (lblSug ++ ' ' :: t) =
      { acc with suggestions := spec_split_suggestions t } := by
  obtain ⟨hlt, hrt⟩ := of_pstrip_eq_self ht
  have hSugCons : lblSug = 'S' :: lblSug.tail := by decide
  have hRespCons : lblResp = 'R' :: lblResp.tail := by decide
  have hline : pstrip (lblSug ++ ' ' :: t) = lblSug ++ rstrip (' ' :: t) := by
    unfold pstrip
    rw [show lblSug ++ ' ' :: t = 'S' :: (lblSug.tail ++ ' ' :: t) by
          rw [← List.cons_append, ← hSugCons],
        lstrip_cons_of_not_space _ (by decide),
        show ('S' : Char) :: (lblSug.tail ++ ' ' :: t) = lblSug ++ ' ' :: t by
          rw [← List.cons_append, ← hSugCons]]
    exact rstrip_append _ (by decide)
  have hrs : rstrip (' ' :: t) <:+ (' ' :: t) := by
    rcases eq_or_ne t [] with rfl | hne
    · rw [show rstrip [' '] = [] from by decide]
      exact List.nil_suffix
    · rw [rstrip_cons_of_rstrip_self hrt hne]
  have hRespFalse : startswith lblResp (lblSug ++ rstrip (' ' :: t)) = false := by
    rw [show lblSug ++ rstrip (' ' :: t) = 'S' :: (lblSug.tail ++ rstrip (' ' :: t)) by
          rw [← List.cons_append, ← hSugCons],
        hRespCons]
    exact startswith_head_ne (by decide)
  have hSumFalse : startswith lblSum (lblSug ++ rstrip (' ' :: t)) = false := by
    rw [startswith_append_left _ (by decide)]
    decide
  have hSugTrue : startswith lblSug (lblSug ++ rstrip (' ' :: t)) = true :=
    startswith_append_self _ _
  have hnoocc : ∀ w, w <:+ (' ' :: t) → startswith lblSug w = false := by
    intro w hw
    rcases List.suffix_cons_iff.mp hw with rfl | hw'
    · rw [hSugCons]
      exact startswith_head_ne (by decide)
    · exact hocc w hw'
  have hrem : removeAll lblSug (lblSug ++ rstrip (' ' :: t)) = rstrip (' ' :: t) := by
    rw [removeAll_append_self _ (by decide)]
    exact removeAll_of_no_occurrence
      (fun w hw => hnoocc w (hw.trans hrs))
  have hsug : pstrip (rstrip (' ' :: t)) = t := by
    rcases eq_or_ne t [] with rfl | hne
    · decide
    · rw [rstrip_cons_of_rstrip_self hrt hne]
      unfold pstrip
      rw [lstrip_cons_space, hlt, hrt]
  unfold parse_line
  simp only [hline]
  rw [if_neg (by rw [hRespFalse]; simp), if_neg (by rw [hSumFalse]; simp),
      if_pos hSugTrue, hrem, hsug, filter_map_pstrip]
  rfl

theorem parse_ai_output_accepted {out : List Char} {tr : Triple}
    (h : parse_ai_output out = some tr) :
    tr.customer_response ≠ [] ∧ tr.summary ≠ [] ∧ tr.suggestions ≠ [] := by
  simp only [parse_ai_output] at h
  split at h
  · rename_i hc
    cases h
    exact hc
  · cases h

theorem fallback_responses_nonempty (r : Int) :
    (fallback_responses r).customer_response ≠ [] ∧
      (fallback_responses r).summary ≠ [] ∧
      (fallback_responses r).suggestions ≠ [] := by
  unfold fallback_responses fallback_lookup
  split
  · exact ⟨by decide, by decide, by decide⟩
  · split
    · exact ⟨by decide, by decide, by decide⟩
    · split
      · exact ⟨by decide, by decide, by decide⟩
      · split
        · exact ⟨by decide, by decide, by decide⟩
        · split
          · exact ⟨by decide, by decide, by decide⟩
          · exact ⟨by decide, by decide, by decide⟩

theorem generate_ai_responses_nonempty (st : AIState)
    (provider : List Char → Nat → ProviderResult) (rating : Int) (review : List Char) :
    ((generate_ai_responses st provider rating review).1.customer_response ≠ [] ∧
      (generate_ai_responses st provider rating review).1.summary ≠ [] ∧
      (generate_ai_responses st provider rating review).1.suggestions ≠ []) := by
  by_cases hen : st.enabled
  · rcases hout : (generate_ai_content st (build_prompt rating review) provider).1 with _ | out
    · simp only [generate_ai_responses, hen, if_true, hout]
      exact fallback_responses_nonempty rating
    · by_cases hnil : out = []
      · simp only [generate_ai_responses, hen, if_true, hout, hnil]
        simp only [ne_eq, not_true_eq_false, if_false]
        exact fallback_responses_nonempty rating
      · rcases hp : parse_ai_output out with _ | tr
        · simp only [generate_ai_responses, hen, if_true, hout, hp]
          simp only [ne_eq, hnil, not_false_eq_true, if_true]
          exact fallback_responses_nonempty rating
        · simp only [generate_ai_responses, hen, if_true, hout, hp]
          simp only [ne_eq, hnil, not_false_eq_true, if_true]
          exact parse_ai_output_accepted hp
  · simp only [generate_ai_responses, hen, if_false]
    exact fallback_responses_nonempty rating

/-! Helper lemmas about the id encoding. -/

theorem digits_len_le_of_lt {k n : ℕ} (h : n < 10 ^ k) :
    (Nat.digits 10 n).length ≤ k := by
  rcases Nat.eq_zero_or_pos n with rfl | hn
  · simp
  · rw [Nat.digits_len 10 n (by norm_num) hn.ne']
    have hlog : Nat.log 10 n < k := Nat.log_lt_of_lt_pow hn.ne' h
    omega

theorem padDigits_length {k n : ℕ} (h : n < 10 ^ k) : (padDigits k n).length = k := by
  have := digits_len_le_of_lt h
  simp [padDigits]
  omega

theorem ofDigits_padDigits (k n : ℕ) : Nat.ofDigits 10 (padDigits k n) = n := by
  rw [padDigits, Nat.ofDigits_append, Nat.ofDigits_digits]
  have hz : Nat.ofDigits 10 (List.replicate (k - (Nat.digits 10 n).length) 0) = 0 := by
    generalize (k - (Nat.digits 10 n).length) = m
    induction m with
    | zero => simp
    | succ j ih => simpa [List.replicate, Nat.ofDigits] using ih
  rw [hz]
  simp

theorem padDigits_inj {k n m : ℕ} (h : padDigits k n = padDigits k m) : n = m := by
  have := congrArg (Nat.ofDigits 10) h
  rwa [ofDigits_padDigits, ofDigits_padDigits] at this

theorem strftimeId_inj {t u : DT} (ht : t.valid) (hu : u.valid)
    (h : strftimeId t = strftimeId u) : t = u := by
  obtain ⟨ht1, ht2, ht3, ht4, ht5, ht6, ht7⟩ := ht
  obtain ⟨hu1, hu2, hu3, hu4, hu5, hu6, hu7⟩ := hu
  unfold strftimeId at h
  obtain ⟨h, hus⟩ := List.append_inj' h (by rw [padDigits_length ht7, padDigits_length hu7])
  obtain ⟨h, hse⟩ := List.append_inj' h (by rw [padDigits_length ht6, padDigits_length hu6])
  obtain ⟨h, hmi⟩ := List.append_inj' h (by rw [padDigits_length ht5, padDigits_length hu5])
  obtain ⟨h, hh⟩ := List.append_inj' h (by rw [padDigits_length ht4, padDigits_length hu4])
  obtain ⟨h, hd⟩ := List.append_inj' h (by rw [padDigits_length ht3, padDigits_length hu3])
  obtain ⟨hy, hmo⟩ := List.append_inj' h (by rw [padDigits_length ht2, padDigits_length hu2])
  cases t; cases u
  simp only [DT.mk.injEq]
  exact ⟨padDigits_inj hy, padDigits_inj hmo, padDigits_inj hd,
    padDigits_inj hh, padDigits_inj hmi, padDigits_inj hse, padDigits_inj hus⟩

/-! Helper lemmas about the AI client. -/

theorem generate_ai_content_disabled {st : AIState} (prompt : List Char)
    (provider : List Char → Nat → ProviderResult) (h : st.enabled = false) :
    generate_ai_content st prompt provider = (none, st, 0) := by
  simp [generate_ai_content, h]

theorem runGenCalls_disabled {st : AIState}
    (calls : List (List Char × (List Char → Nat → ProviderResult)))
    (h : st.enabled = false) :
    runGenCalls st calls = (calls.map (fun _ => (none, 0)), st) := by
  induction calls with
  | nil => simp [runGenCalls]
  | cons c rest ih =>
    obtain ⟨p, pr⟩ := c
    simp [runGenCalls, generate_ai_content_disabled p pr h, ih]

/-! Helper lemmas about the submit handler. -/

theorem submit_review_accepted (st : AIState)
    (provider : List Char → Nat → ProviderResult) (now : DT) (store : List Submission)
    (e : SubmitEvent) (h : eventAccepted e = true) :
    ∃ r rv,
      getRating e.ratingField = some r ∧ getReview e.reviewField = some rv ∧
      submit_review st provider now store e.ratingField e.reviewField =
        (.ok (generate_ai_responses st provider r rv).1.customer_response,
         store ++
           [{ id := strftimeId now
              timestamp := strftimeTs now
              rating := r
              review := rv
              ai_response := (generate_ai_responses st provider r rv).1.customer_response
              ai_summary := (generate_ai_responses st provider r rv).1.summary
              ai_actions := (generate_ai_responses st provider r rv).1.suggestions }],
         (generate_ai_responses st provider r rv).2) := by
  unfold eventAccepted at h
  rcases hr : getRating e.ratingField with _ | r
  · rw [hr] at h; cases h
  · rcases hv : getReview e.reviewField with _ | rv
    · rw [hr, hv] at h; cases h
    · rw [hr, hv] at h
      simp only [Bool.and_eq_true, decide_eq_true_eq, Bool.not_eq_true'] at h
      obtain ⟨⟨hne, hrange⟩, hlen⟩ := h
      refine ⟨r, rv, rfl, rfl, ?_⟩
      unfold submit_review
      rw [hr, hv]
      dsimp only
      rw [if_neg (by simpa using hne)]
      rw [if_neg (by simp only [Bool.or_eq_false_iff, decide_eq_false_iff_not] at hrange; omega)]
      rw [if_neg (by omega)]

theorem runSubmits_accepted (provider : List Char → Nat → ProviderResult)
    (events : List SubmitEvent) :
    ∀ st store, (∀ e ∈ events, eventAccepted e = true) →
      ((runSubmits st provider events store).1).map (fun s => s.id)
          = store.map (fun s => s.id) ++ events.map (fun e => strftimeId e.now) ∧
        ((runSubmits st provider events store).1).length
          = store.length + events.length := by
  induction events with
  | nil => intro st store _; simp [runSubmits]
  | cons e rest ih =>
    intro st store hall
    obtain ⟨r, rv, _, _, heq⟩ :=
      submit_review_accepted st provider e.now store e (hall e (by simp))
    simp only [runSubmits, heq]
    obtain ⟨ih1, ih2⟩ :=
      ih (generate_ai_responses st provider r rv).2 _
        (fun e' he' => hall e' (List.mem_cons_of_mem e he'))
    constructor
    · rw [ih1]
      simp
    · rw [ih2]
      simp
      omega

/-! Helper lemmas about the admin aggregation. -/

theorem foldCounts_go (subs : List Submission) :
    ∀ rc : RatingCounts, (∀ s ∈ subs, 1 ≤ s.rating ∧ s.rating ≤ 5) →
      subs.foldlM (fun rc s => bumpCount rc s.rating) rc = some
        { c1 := rc.c1 + (subs.filter (fun s => s.rating = 1)).length
          c2 := rc.c2 + (subs.filter (fun s => s.rating = 2)).length
          c3 := rc.c3 + (subs.filter (fun s => s.rating = 3)).length
          c4 := rc.c4 + (subs.filter (fun s => s.rating = 4)).length
          c5 := rc.c5 + (subs.filter (fun s => s.rating = 5)).length } := by
  induction subs with
  | nil => intro rc _; simp
  | cons s rest ih =>
    intro rc hall
    have hs := hall s (by simp)
    have hrest := fun e he => hall e (List.mem_cons_of_mem s he)
    have hcases : s.rating = 1 ∨ s.rating = 2 ∨ s.rating = 3 ∨ s.rating = 4 ∨ s.rating = 5 := by
      omega
    rcases hcases with h | h | h | h | h
    · have hb : bumpCount rc s.rating = some { rc with c1 := rc.c1 + 1 } := by
        simp [bumpCount, h]
      rw [List.foldlM_cons, hb]
      change List.foldlM _ _ rest = _
      rw [ih _ hrest]
      simp [List.filter_cons, h, RatingCounts.mk.injEq]
      all_goals omega
    · have hb : bumpCount rc s.rating = some { rc with c2 := rc.c2 + 1 } := by
        simp [bumpCount, h]
      rw [List.foldlM_cons, hb]
      change List.foldlM _ _ rest = _
      rw [ih _ hrest]
      simp [List.filter_cons, h, RatingCounts.mk.injEq]
      all_goals omega
    · have hb : bumpCount rc s.rating = some { rc with c3 := rc.c3 + 1 } := by
        simp [bumpCount, h]
      rw [List.foldlM_cons, hb]
      change List.foldlM _ _ rest = _
      rw [ih _ hrest]
      simp [List.filter_cons, h, RatingCounts.mk.injEq]
      all_goals omega
    · have hb : bumpCount rc s.rating = some { rc with c4 := rc.c4 + 1 } := by
        simp [bumpCount, h]
      rw [List.foldlM_cons, hb]
      change List.foldlM _ _ rest = _
      rw [ih _ hrest]
      simp [List.filter_cons, h, RatingCounts.mk.injEq]
      all_goals omega
    · have hb : bumpCount rc s.rating = some { rc with c5 := rc.c5 + 1 } := by
        simp [bumpCount, h]
      rw [List.foldlM_cons, hb]
      change List.foldlM _ _ rest = _
      rw [ih _ hrest]
      simp [List.filter_cons, h, RatingCounts.mk.injEq]
      all_goals omega

/-! The claims. -/

/-- C1: for every rating 1..5 and every review text of 1 to 1000 characters
that is not whitespace-only, the pipeline `generate_ai_responses` never fails
and returns a triple whose customer response and summary are non-empty and
whose suggestions list has at least one element, on both the AI-parse path and
the fallback path (the process state and provider oracle are universally
quantified, so both paths are covered). -/
theorem claim_pipeline_never_fails (st : AIState)
    (provider : List Char → Nat → ProviderResult) (rating : Int) (review : List Char)
    (h1 : 1 ≤ rating) (h2 : rating ≤ 5)
    (h3 : 1 ≤ review.length) (h4 : review.length ≤ 1000) (h5 : pstrip review ≠ []) :
    (generate_ai_responses st provider rating review).1.customer_response ≠ [] ∧
    (generate_ai_responses st provider rating review).1.summary ≠ [] ∧
    1 ≤ (generate_ai_responses st provider rating review).1.suggestions.length := by
  obtain ⟨ha, hb, hc⟩ := generate_ai_responses_nonempty st provider rating review
  exact ⟨ha, hb, List.length_pos.mpr hc⟩

/-- Witness for C1 at rating 5, review "ok", in the fallback state. -/
theorem claim_pipeline_never_fails_witness :
    ((1 : Int) ≤ 5 ∧ (5 : Int) ≤ 5 ∧ 1 ≤ (String.toList "ok").length ∧
      (String.toList "ok").length ≤ 1000 ∧ pstrip (String.toList "ok") ≠ []) ∧
    ((generate_ai_responses ⟨false, false⟩ provFail 5 (String.toList "ok")).1.customer_response ≠ [] ∧
      (generate_ai_responses ⟨false, false⟩ provFail 5 (String.toList "ok")).1.summary ≠ [] ∧
      1 ≤ (generate_ai_responses ⟨false, false⟩ provFail 5 (String.toList "ok")).1.suggestions.length) :=
  ⟨⟨by decide, by decide, by decide, by decide, by decide⟩,
    claim_pipeline_never_fails ⟨false, false⟩ provFail 5 (String.toList "ok")
      (by decide) (by decide) (by decide) (by decide) (by decide)⟩

/-- C7: the fallback-table lookup is a total, deterministic, side-effect-free
function (it is a plain function of the rating alone), and every integer
rating outside 1..5 resolves to the rating-3 neutral entry. -/
theorem claim_fallback_total (r : Int) (h : r < 1 ∨ r > 5) :
    fallback_responses r = fallback_responses 3 := by
  have hr : fallback_lookup r = none := by
    unfold fallback_lookup
    rw [if_neg (by omega), if_neg (by omega), if_neg (by omega),
        if_neg (by omega), if_neg (by omega)]
  unfold fallback_responses
  rw [hr]
  rfl

/-- Witness for C7 at the out-of-range rating 0. -/
theorem claim_fallback_total_witness :
    ((0 : Int) < 1 ∨ (0 : Int) > 5) ∧ fallback_responses 0 = fallback_responses 3 :=
  ⟨Or.inl (by decide), claim_fallback_total 0 (Or.inl (by decide))⟩

/-- C5: parsing the exactly-formatted provider text yields the expected
triple, and in general a `SUGGESTIONS:` line's remainder is split on comma,
bullet, or hyphen, each piece trimmed, empty pieces discarded (stated for any
trimmed remainder not containing the label itself, against the independent
spec-side definition `spec_split_suggestions`). -/
theorem claim_parser_round_trip :
    (parse_ai_output (String.toList "RESPONSE TO CUSTOMER: A\nSUMMARY: B\nSUGGESTIONS: C, D, E")
      = some ⟨String.toList "A", String.toList "B",
              [String.toList "C", String.toList "D", String.toList "E"]⟩) ∧
    (∀ (acc : Triple) (t : List Char), pstrip t = t →
      (∀ w, w <:+ t → startswith lblSug w = false) →
      parse_line acc (lblSug ++ ' ' :: t)
        = { acc with suggestions := spec_split_suggestions t }) :=
  ⟨by decide, parse_line_suggestions⟩

/-- Witness for C5's general part at the remainder "C, D, E". -/
theorem claim_parser_round_trip_witness :
    parse_line ⟨[], [], []⟩ (lblSug ++ ' ' :: String.toList "C, D, E")
      = { customer_response := ([] : List Char), summary := ([] : List Char),
          suggestions := spec_split_suggestions (String.toList "C, D, E") } :=
  claim_parser_round_trip.2 ⟨[], [], []⟩ (String.toList "C, D, E") (by decide)
    (fun w hw => startswith_false_of_short (by
      have h1 := hw.length_le
      have h2 : (String.toList "C, D, E").length = 7 := by decide
      have h3 : lblSug.length = 12 := by decide
      omega))

/-- C6: the parser accepts a provider output only when all three fields end up
non-empty; a text missing one of the three exactly-labeled lines (for example
one containing only the customer-response and summary lines) parses as
incomplete, and whenever the AI call returned a text whose parse is incomplete
the pipeline returns the fallback-table entry for the rating. -/
theorem claim_parser_incomplete_fallback :
    (∀ (out : List Char) (tr : Triple), parse_ai_output out = some tr →
      tr.customer_response ≠ [] ∧ tr.summary ≠ [] ∧ tr.suggestions ≠ []) ∧
    parse_ai_output (String.toList "RESPONSE TO CUSTOMER: A\nSUMMARY: B") = none ∧
    (∀ (st : AIState) (provider : List Char → Nat → ProviderResult)
        (rating : Int) (review out : List Char),
      st.enabled = true →
      (generate_ai_content st (build_prompt rating review) provider).1 = some out →
      parse_ai_output out = none →
      (generate_ai_responses st provider rating review).1 = fallback_responses rating) := by
  refine ⟨fun out tr h => parse_ai_output_accepted h, by decide, ?_⟩
  intro st provider rating review out hen hout hp
  simp only [generate_ai_responses, hen, if_true, hout]
  by_cases hnil : out = []
  · simp [hnil]
  · simp [hnil, hp]

/-- Witness for C6: a provider that answers with only the first two labeled
lines drives the pipeline to the rating-2 fallback entry. -/
theorem claim_parser_incomplete_fallback_witness :
    (generate_ai_responses ⟨true, true⟩
        (provText (String.toList "RESPONSE TO CUSTOMER: A\nSUMMARY: B")) 2
        (String.toList "meh")).1 = fallback_responses 2 :=
  claim_parser_incomplete_fallback.2.2 ⟨true, true⟩
    (provText (String.toList "RESPONSE TO CUSTOMER: A\nSUMMARY: B")) 2
    (String.toList "meh") (String.toList "RESPONSE TO CUSTOMER: A\nSUMMARY: B")
    rfl (by decide) (by decide)

/-- C2 as stated is false at a concrete input: with a valid review, a rating
value that is not an integer (the JSON string "abc") is not answered with a
client error; `int("abc")` raises inside the handler's try block and the
response is the 500 internal error, with no record persisted. -/
theorem claim_submit_validation_counterexample :
    isClientError (submit_review ⟨false, false⟩ provFail dtA []
        (some (.jstr (String.toList "abc"))) (some (.jstr (String.toList "Good food")))).1
      = false ∧
    (submit_review ⟨false, false⟩ provFail dtA []
        (some (.jstr (String.toList "abc"))) (some (.jstr (String.toList "Good food"))))
      = (.serverError, [], ⟨false, false⟩) := by
  constructor
  · decide
  · decide

/-- C2 amended: POST /submit behaves as claimed for rating values on which
Python `int()` succeeds — empty or whitespace-only review gives 400, coerced
rating outside [1,5] gives 400, review longer than 1000 characters after
trimming gives 400, each with a human-readable message and an unchanged
store; a valid request gives 200 with a non-empty ai_response and appends one
record.  A rating (or truthy non-string review) on which the coercion raises
yields a 500 internal error, not a 400, still with an unchanged store. -/
theorem claim_submit_validation_amended (st : AIState)
    (provider : List Char → Nat → ProviderResult) (now : DT) (store : List Submission)
    (ratingField reviewField : Option JVal) :
    (∀ r, getRating ratingField = some r → getReview reviewField = some [] →
      submit_review st provider now store ratingField reviewField
        = (.badRequest (String.toList "Please write a review."), store, st)) ∧
    (∀ r rv, getRating ratingField = some r → getReview reviewField = some rv →
      rv ≠ [] → (r < 1 ∨ r > 5) →
      submit_review st provider now store ratingField reviewField
        = (.badRequest (String.toList "Rating must be between 1 and 5."), store, st)) ∧
    (∀ r rv, getRating ratingField = some r → getReview reviewField = some rv →
      rv ≠ [] → 1 ≤ r → r ≤ 5 → rv.length > 1000 →
      submit_review st provider now store ratingField reviewField
        = (.badRequest (String.toList "Review too long (max 1000 characters)."), store, st)) ∧
    ((getRating ratingField = none ∨ getReview reviewField = none) →
      submit_review st provider now store ratingField reviewField
        = (.serverError, store, st)) ∧
    (∀ r rv, getRating ratingField = some r → getReview reviewField = some rv →
      rv ≠ [] → 1 ≤ r → r ≤ 5 → rv.length ≤ 1000 →
      ∃ resp sub,
        submit_review st provider now store ratingField reviewField
          = (.ok resp, store ++ [sub], (generate_ai_responses st provider r rv).2) ∧
        resp ≠ [] ∧ sub.rating = r ∧ sub.review = rv ∧ sub.id = strftimeId now) := by
  refine ⟨?_, ?_, ?_, ?_, ?_⟩
  · intro r hr hv
    unfold submit_review
    rw [hr, hv]
    dsimp only
    rw [if_pos rfl]
  · intro r rv hr hv hne hrange
    unfold submit_review
    rw [hr, hv]
    dsimp only
    rw [if_neg hne, if_pos hrange]
  · intro r rv hr hv hne hlo hhi hlen
    unfold submit_review
    rw [hr, hv]
    dsimp only
    rw [if_neg hne, if_neg (by omega), if_pos hlen]
  · intro h
    rcases h with h | h
    · unfold submit_review
      rw [h]
    · rcases hr : getRating ratingField with _ | r
      · unfold submit_review
        rw [hr]
      · unfold submit_review
        rw [hr, h]
  · intro r rv hr hv hne hlo hhi hlen
    obtain ⟨r', rv', hr', hv', heq⟩ :=
      submit_review_accepted st provider now store ⟨now, ratingField, reviewField⟩
        (by
          unfold eventAccepted
          simp only
          rw [hr, hv]
          simp [hne, hlen]
          omega)
    simp only at hr' hv'
    rw [hr] at hr'
    rw [hv] at hv'
    cases hr'
    cases hv'
    refine ⟨_, _, heq, ?_, rfl, rfl, rfl⟩
    exact (generate_ai_responses_nonempty st provider r rv).1

/-- Witness for C2's amended claim: rating 6 with review "Good food" yields
the range 400 and leaves the store unchanged, and the same request with
rating 3 yields a 200 whose record carries the submitted data. -/
theorem claim_submit_validation_amended_witness :
    submit_review ⟨false, false⟩ provFail dtA [] (some (.jint 6))
        (some (.jstr (String.toList "Good food")))
      = (.badRequest (String.toList "Rating must be between 1 and 5."), [], ⟨false, false⟩) ∧
    ∃ resp sub,
      submit_review ⟨false, false⟩ provFail dtA [] (some (.jint 3))
          (some (.jstr (String.toList "Good food")))
        = (.ok resp, [] ++ [sub],
            (generate_ai_responses ⟨false, false⟩ provFail 3 (String.toList "Good food")).2) ∧
      resp ≠ [] ∧ sub.rating = 3 ∧ sub.review = String.toList "Good food" ∧
      sub.id = strftimeId dtA :=
  ⟨(claim_submit_validation_amended ⟨false, false⟩ provFail dtA [] (some (.jint 6))
        (some (.jstr (String.toList "Good food")))).2.1 6 (String.toList "Good food")
      (by decide) (by decide) (by decide) (by decide),
    (claim_submit_validation_amended ⟨false, false⟩ provFail dtA [] (some (.jint 3))
        (some (.jstr (String.toList "Good food")))).2.2.2.2 3 (String.toList "Good food")
      (by decide) (by decide) (by decide) (by decide) (by decide) (by decide)⟩

/-- C3 as stated is false at a concrete file state: a backing file that
decodes to the JSON number 42 — a value that is not a sequence — is returned
as-is by `get_submissions`, not replaced by the empty sequence. -/
theorem claim_store_load_counterexample :
    isEmptyArr (get_submissions (.val (.jint 42))) = false ∧
    get_submissions (.val (.jint 42)) = .jint 42 :=
  ⟨rfl, rfl⟩

/-- C3 amended: `get_submissions` returns the empty sequence whenever the
file is unreadable or cannot be parsed as JSON (no error is surfaced), but a
successfully decoded value is returned unchanged even when it is not a
sequence; the non-sequence repair happens only in `init_data_file` at process
start, after which the file always holds a sequence. -/
theorem claim_store_load_amended :
    (∀ fc : FileContent, fc = .absent ∨ fc = .unparsable → get_submissions fc = .jarr []) ∧
    (∀ v : JVal, get_submissions (.val v) = v) ∧
    (∀ fc : FileContent, ∃ l : List JVal,
      init_data_file fc = .val (.jarr l) ∧
      get_submissions (init_data_file fc) = .jarr l) := by
  refine ⟨?_, fun v => rfl, ?_⟩
  · intro fc h
    rcases h with rfl | rfl <;> rfl
  · intro fc
    cases fc with
    | absent => exact ⟨[], rfl, rfl⟩
    | unparsable => exact ⟨[], rfl, rfl⟩
    | val v =>
      cases v with
      | jarr l => exact ⟨l, rfl, rfl⟩
      | jnull => exact ⟨[], rfl, rfl⟩
      | jbool b => exact ⟨[], rfl, rfl⟩
      | jint n => exact ⟨[], rfl, rfl⟩
      | jstr s => exact ⟨[], rfl, rfl⟩

/-- Witness for C3's amended claim: an unparsable file loads as the empty
sequence. -/
theorem claim_store_load_amended_witness :
    get_submissions .unparsable = .jarr [] :=
  claim_store_load_amended.1 .unparsable (Or.inr rfl)

/-- C4: on a call while enabled the provider is attempted at most twice; if
both attempts raise, the process-wide flag is cleared and the call returns
absent; the flag is never turned back on by a generate call; and from a
disabled state every call — and every subsequent sequence of calls — returns
absent immediately with zero provider invocations. -/
theorem claim_circuit_breaker (st : AIState) (prompt : List Char)
    (provider : List Char → Nat → ProviderResult)
    (calls : List (List Char × (List Char → Nat → ProviderResult))) :
    (generate_ai_content st prompt provider).2.2 ≤ 2 ∧
    (st.enabled = false → generate_ai_content st prompt provider = (none, st, 0)) ∧
    ((generate_ai_content st prompt provider).2.1.enabled = true → st.enabled = true) ∧
    (st.enabled = true → st.modelPresent = true →
      provider prompt 0 = .exn → provider prompt 1 = .exn →
      generate_ai_content st prompt provider = (none, ⟨false, st.modelPresent⟩, 2)) ∧
    (st.enabled = false →
      runGenCalls st calls = (calls.map (fun _ => (none, 0)), st)) := by
  refine ⟨?_, fun h => generate_ai_content_disabled prompt provider h, ?_, ?_,
    fun h => runGenCalls_disabled calls h⟩
  · by_cases hb : (st.enabled && st.modelPresent) = true
    · cases h0 : provider prompt 0 with
      | ok t => simp [generate_ai_content, hb, h0]
      | exn =>
        cases h1 : provider prompt 1 with
        | ok t => simp [generate_ai_content, hb, h0, h1]
        | exn => simp [generate_ai_content, hb, h0, h1]
    · simp [generate_ai_content, hb]
  · intro hpost
    by_cases hen : st.enabled
    · exact hen
    · have hd := generate_ai_content_disabled prompt provider (by simpa using hen)
      rw [hd] at hpost
      exact hpost
  · intro h1 h2 h3 h4
    simp [generate_ai_content, h1, h2, h3, h4]

/-- Witness for C4: with a provider that always raises, one enabled call makes
two attempts, disables the client and returns absent, and a subsequent call in
the disabled state returns absent with zero invocations. -/
theorem claim_circuit_breaker_witness :
    generate_ai_content ⟨true, true⟩ [] provFail = (none, ⟨false, true⟩, 2) ∧
    runGenCalls ⟨false, true⟩ [([], provFail)] = ([(none, 0)], ⟨false, true⟩) := by
  have h := claim_circuit_breaker ⟨true, true⟩ [] provFail [([], provFail)]
  have h' := claim_circuit_breaker ⟨false, true⟩ [] provFail [([], provFail)]
  exact ⟨h.2.2.2.1 rfl rfl rfl rfl, by simpa using h'.2.2.2.2 rfl⟩

/-- C8: for every stored sequence whose ratings lie in 1..5, the admin view is
computed without error, with total the number of records, the zero-filled
per-rating histogram, and the mean rating rounded to two decimal places (0
with no records); in particular ratings [5,5,1] give total 3, average 3.67 and
histogram {1:1, 2:0, 3:0, 4:0, 5:2}. -/
theorem claim_admin_aggregation :
    (∀ subs : List Submission, (∀ s ∈ subs, 1 ≤ s.rating ∧ s.rating ≤ 5) →
      ∃ v, admin_dashboard subs = some v ∧
        v.total = subs.length ∧
        v.rating_counts = ⟨(subs.filter (fun s => s.rating = 1)).length,
          (subs.filter (fun s => s.rating = 2)).length,
          (subs.filter (fun s => s.rating = 3)).length,
          (subs.filter (fun s => s.rating = 4)).length,
          (subs.filter (fun s => s.rating = 5)).length⟩ ∧
        (subs.length = 0 → v.avg_rating = 0) ∧
        (0 < subs.length → v.avg_rating =
          round2 (((subs.map (fun s => s.rating)).sum : ℚ) / (subs.length : ℚ)))) ∧
    admin_dashboard [exRec 5, exRec 5, exRec 1]
      = some ⟨3, 367 / 100, ⟨1, 0, 0, 0, 2⟩⟩ := by
  constructor
  · intro subs h
    rcases Nat.eq_zero_or_pos subs.length with hz | hp
    · have hnil : subs = [] := List.length_eq_zero.mp hz
      subst hnil
      exact ⟨⟨0, 0, ⟨0, 0, 0, 0, 0⟩⟩, by simp [admin_dashboard], rfl, rfl,
        fun _ => rfl, fun hc => absurd hc (by simp)⟩
    · have hfold : foldCounts subs = some
          { c1 := (subs.filter (fun s => s.rating = 1)).length
            c2 := (subs.filter (fun s => s.rating = 2)).length
            c3 := (subs.filter (fun s => s.rating = 3)).length
            c4 := (subs.filter (fun s => s.rating = 4)).length
            c5 := (subs.filter (fun s => s.rating = 5)).length } := by
        have := foldCounts_go subs ⟨0, 0, 0, 0, 0⟩ h
        simpa [foldCounts] using this
      have hadm : admin_dashboard subs = some
          ⟨subs.length,
            round2 (((subs.map (fun s => s.rating)).sum : ℚ) / (subs.length : ℚ)),
            { c1 := (subs.filter (fun s => s.rating = 1)).length
              c2 := (subs.filter (fun s => s.rating = 2)).length
              c3 := (subs.filter (fun s => s.rating = 3)).length
              c4 := (subs.filter (fun s => s.rating = 4)).length
              c5 := (subs.filter (fun s => s.rating = 5)).length }⟩ := by
        unfold admin_dashboard
        dsimp only
        rw [if_pos hp, hfold]
      exact ⟨_, hadm, rfl, rfl, fun h0 => absurd h0 (by omega), fun _ => rfl⟩
  · have hc : foldCounts [exRec 5, exRec 5, exRec 1] = some ⟨1, 0, 0, 0, 2⟩ := by decide
    have hav : round2 ((11 : ℚ) / 3) = 367 / 100 := by
      have hf : ⌊(11 / 3 : ℚ) * 100⌋ = 366 := by
        rw [Int.floor_eq_iff]
        norm_num
      rw [round2, pyRound0]
      rw [hf]
      norm_num
    unfold admin_dashboard
    dsimp only
    rw [if_pos (by norm_num), hc]
    dsimp only
    norm_num [exRec, hav]

/-- Witness for C8's universally quantified part at the one-record store
[exRec 4]. -/
theorem claim_admin_aggregation_witness :
    ∃ v, admin_dashboard [exRec 4] = some v ∧
      v.total = [exRec 4].length ∧
      v.rating_counts = ⟨([exRec 4].filter (fun s => s.rating = 1)).length,
        ([exRec 4].filter (fun s => s.rating = 2)).length,
        ([exRec 4].filter (fun s => s.rating = 3)).length,
        ([exRec 4].filter (fun s => s.rating = 4)).length,
        ([exRec 4].filter (fun s => s.rating = 5)).length⟩ ∧
      ([exRec 4].length = 0 → v.avg_rating = 0) ∧
      (0 < [exRec 4].length → v.avg_rating =
        round2 ((([exRec 4].map (fun s => s.rating)).sum : ℚ) / ([exRec 4].length : ℚ))) :=
  claim_admin_aggregation.1 [exRec 4] (by decide)

/-- C9: starting from the empty store, a sequence of accepted submissions in
one process leaves, in export order, exactly one record per submission, and —
the clock having microsecond precision, with distinct instants across the
submissions — all record ids are pairwise distinct. -/
theorem claim_export_order_unique_ids (st : AIState)
    (provider : List Char → Nat → ProviderResult) (events : List SubmitEvent)
    (hacc : ∀ e ∈ events, eventAccepted e = true)
    (hval : ∀ e ∈ events, e.now.valid)
    (hdist : events.Pairwise (fun a b => a.now ≠ b.now)) :
    (export_data (runSubmits st provider events []).1).length = events.length ∧
    (export_data (runSubmits st provider events []).1).map (fun s => s.id)
      = events.map (fun e => strftimeId e.now) ∧
    ((export_data (runSubmits st provider events []).1).map (fun s => s.id)).Pairwise
      (fun a b => a ≠ b) := by
  obtain ⟨hmap, hlen⟩ := runSubmits_accepted provider events st [] hacc
  refine ⟨by simpa [export_data] using hlen, by simpa [export_data] using hmap, ?_⟩
  have hmap' : (export_data (runSubmits st provider events []).1).map (fun s => s.id)
      = events.map (fun e => strftimeId e.now) := by
    simpa [export_data] using hmap
  rw [hmap', List.pairwise_map]
  refine List.Pairwise.imp_of_mem ?_ hdist
  intro a b ha hb hne hid
  exact hne (strftimeId_inj (hval a ha) (hval b hb) hid)

/-- Witness for C9 at two accepted submissions one microsecond apart. -/
theorem claim_export_order_unique_ids_witness :
    (export_data (runSubmits ⟨false, false⟩ provFail
        [⟨dtA, some (.jint 5), some (.jstr (String.toList "Good food"))⟩,
         ⟨dtB, some (.jint 1), some (.jstr (String.toList "Bad"))⟩] []).1).length
      = [⟨dtA, some (.jint 5), some (.jstr (String.toList "Good food"))⟩,
         (⟨dtB, some (.jint 1), some (.jstr (String.toList "Bad"))⟩ : SubmitEvent)].length ∧
    (export_data (runSubmits ⟨false, false⟩ provFail
        [⟨dtA, some (.jint 5), some (.jstr (String.toList "Good food"))⟩,
         ⟨dtB, some (.jint 1), some (.jstr (String.toList "Bad"))⟩] []).1).map (fun s => s.id)
      = [⟨dtA, some (.jint 5), some (.jstr (String.toList "Good food"))⟩,
         (⟨dtB, some (.jint 1), some (.jstr (String.toList "Bad"))⟩ : SubmitEvent)].map
          (fun e => strftimeId e.now) ∧
    ((export_data (runSubmits ⟨false, false⟩ provFail
        [⟨dtA, some (.jint 5), some (.jstr (String.toList "Good food"))⟩,
         ⟨dtB, some (.jint 1), some (.jstr (String.toList "Bad"))⟩] []).1).map
          (fun s => s.id)).Pairwise (fun a b => a ≠ b) :=
  claim_export_order_unique_ids ⟨false, false⟩ provFail
    [⟨dtA, some (.jint 5), some (.jstr (String.toList "Good food"))⟩,
     ⟨dtB, some (.jint 1), some (.jstr (String.toList "Bad"))⟩]
    (by decide) (by decide)
    (by
      refine List.Pairwise.cons ?_ (List.pairwise_singleton _ _)
      intro b hb
      simp only [List.mem_singleton] at hb
      subst hb
      decide)

/-- C10 (implicit): a POST /submit whose body omits the rating field but
carries a valid review is not rejected: the rating silently defaults to 3, the
response is a 200, and the appended record carries rating 3. -/
theorem claim_rating_default_3 (st : AIState)
    (provider : List Char → Nat → ProviderResult) (now : DT) (store : List Submission)
    (reviewField : Option JVal) (rv : List Char)
    (hv : getReview reviewField = some rv) (hne : rv ≠ []) (hlen : rv.length ≤ 1000) :
    ∃ resp sub,
      submit_review st provider now store none reviewField
        = (.ok resp, store ++ [sub], (generate_ai_responses st provider 3 rv).2) ∧
      sub.rating = 3 ∧ resp ≠ [] := by
  obtain ⟨r', rv', hr', hv', heq⟩ :=
    submit_review_accepted st provider now store ⟨now, none, reviewField⟩
      (by
        unfold eventAccepted
        simp only
        rw [hv]
        simp [getRating, hne, hlen])
  simp only [getRating] at hr'
  cases hr'
  simp only at hv'
  rw [hv] at hv'
  cases hv'
  exact ⟨_, _, heq, rfl, (generate_ai_responses_nonempty st provider 3 rv).1⟩

/-- Witness for C10 with the review "Good food" and the rating field absent. -/
theorem claim_rating_default_3_witness :
    ∃ resp sub,
      submit_review ⟨false, false⟩ provFail dtA [] none
          (some (.jstr (String.toList "Good food")))
        = (.ok resp, [] ++ [sub],
            (generate_ai_responses ⟨false, false⟩ provFail 3 (String.toList "Good food")).2) ∧
      sub.rating = 3 ∧ resp ≠ [] :=
  claim_rating_default_3 ⟨false, false⟩ provFail dtA []
    (some (.jstr (String.toList "Good food"))) (String.toList "Good food")
    (by decide) (by decide) (by decide)
